import Mathlib

/-!
Verification of the unrealscript-debugger repository.

This file gives a shallow embedding of the parts of the code that the
specification's claims are about:

  * the DAP frame codec of `crates/adapter/src/async_client.rs`
    (state machine `Header -> Sep -> Body`, `process_header`,
    `process_separator`, `process_message`, and the writer side
    `respond` / `send_event` / `next_seq`);
  * the adapter/interface channel of `crates/adapter/src/comm.rs`
    (`DefaultChannel::add_breakpoint`, `DefaultChannel::remove_breakpoint`);
  * the request handlers of `crates/adapter/src/connected_adapter.rs`
    (`set_breakpoints`, `evaluate`, `variables`, `is_invalid_expression`,
    `split_source`, the keyword list `UC_KEYWORDS`);
  * the variable-reference codec, which is not present in the sources and is
    therefore modelled from the specification.

Machine integers are modelled as `Int`/`Nat` with explicit wrapping where the
source uses fixed-width arithmetic.  Fallible code returns `Option`/`Except`.
External collaborators (serde serialization of DAP bodies, the engine on the
other end of the channel) are parameters of the embedded functions.
-/

namespace UnrealDbg

/-! ## Machine integer helpers -/

/-- Lower bound of Rust `i32`. -/
def i32Min : Int := -(2 ^ 31)

/-- Upper bound of Rust `i32`. -/
def i32Max : Int := 2 ^ 31 - 1

/-- Whether an `i64` value fits in an `i32`, i.e. `i64 -> i32` `try_into`
succeeds (`connected_adapter.rs`, `bp.line.try_into()`). -/
def inI32 (n : Int) : Prop := i32Min ≤ n ∧ n ≤ i32Max

instance (n : Int) : Decidable (inI32 n) := by unfold inI32; infer_instance

/-- Two's-complement wrap into `i32` range, the release-mode semantics of Rust
`i32` addition. -/
def wrap32 (n : Int) : Int := (n + 2 ^ 31) % 2 ^ 32 - 2 ^ 31

/-- Largest `i64` value. -/
def i64Max : Int := 2 ^ 63 - 1

/-- Two's-complement wrap into `i64` range, the release-mode semantics of Rust
`i64` addition (`seq += 1` in `async_client.rs`). -/
def wrap64 (n : Int) : Int := (n + 2 ^ 63) % 2 ^ 64 - 2 ^ 63

theorem wrap64_eq_of_range (n : Int) (h1 : -(2 ^ 63) ≤ n) (h2 : n < 2 ^ 63) :
    wrap64 n = n := by
  unfold wrap64
  omega

theorem wrap32_eq_of_range (n : Int) (h1 : -(2 ^ 31) ≤ n) (h2 : n < 2 ^ 31) :
    wrap32 n = n := by
  unfold wrap32
  omega

/-! ## Data model shared by adapter and interface (`common` crate)

The `common` crate is not among the sources; the shapes below are taken from
how its types are used in `comm.rs` and `connected_adapter.rs` and from the
spec's data-model section (a breakpoint is a qualified class name plus a
32-bit signed line). -/

/-- A breakpoint: qualified class name and 32-bit signed line. -/
structure Breakpoint where
  qualifiedName : String
  line : Int
  deriving DecidableEq, Repr

/-- Watch kinds (`WatchKind` in the `common` crate; spec section 3). -/
inductive WatchKind
  | localKind
  | globalKind
  | userKind
  deriving DecidableEq, Repr

/-! ## Variable reference codec

Modelled from the spec: the file `crates/adapter/src/variable_reference.rs`
(used by `connected_adapter.rs` as `VariableReference`) is not among the
sources.  The spec (section 4.7) fixes the contract: a 64-bit integer packs
`(WatchKind, FrameIndex, VariableIndex)`; `to_int` is injective over valid
inputs, `from_int` returns the original triple or `none`, and `0` is reserved
to mean "no children".  It suggests the natural layout bits 0-31 = variable
index, 32-61 = frame index, 62-63 = kind; with three watch kinds the kind
field is stored as `kind + 1` so that the reserved value `0` never collides
with a valid encoding. -/

/-- Modelled from the spec: a packed variable reference triple.  The frame
index occupies 30 bits (bits 32-61 of the layout) and the variable index 32
bits (bits 0-31). -/
structure VariableReference where
  kind : WatchKind
  frame : Nat
  varIndex : Nat
  deriving DecidableEq, Repr

/-- Numeric tag of a watch kind, as used inside the packed reference. -/
def WatchKind.tag : WatchKind → Nat
  | .localKind => 0
  | .globalKind => 1
  | .userKind => 2

/-- Modelled from the spec: a triple is valid when each component is in its
representable range: 30 bits of frame index, 32 bits of variable index. -/
def VariableReference.valid (v : VariableReference) : Prop :=
  v.frame < 2 ^ 30 ∧ v.varIndex < 2 ^ 32

instance (v : VariableReference) : Decidable v.valid := by
  unfold VariableReference.valid; infer_instance

/-- Modelled from the spec: pack a variable reference into a single integer
(bits 0-31 variable index, bits 32-61 frame index, bits 62-63 kind tag plus
one). -/
def VariableReference.toInt (v : VariableReference) : Nat :=
  (v.kind.tag + 1) * 2 ^ 62 + v.frame * 2 ^ 32 + v.varIndex

/-- Modelled from the spec: unpack an integer into a variable reference;
`0` (kind field zero) yields `none`. -/
def VariableReference.fromInt (n : Nat) : Option VariableReference :=
  let k := n / 2 ^ 62
  let f := n / 2 ^ 32 % 2 ^ 30
  let x := n % 2 ^ 32
  match k with
  | 1 => some ⟨.localKind, f, x⟩
  | 2 => some ⟨.globalKind, f, x⟩
  | 3 => some ⟨.userKind, f, x⟩
  | _ => none

/-! ## The adapter/interface channel (`crates/adapter/src/comm.rs`)

The channel serializes `UnrealCommand` values over TCP and receives
`UnrealResponse` values synchronously from the shared-memory ring with
`recv_timeout(DEFAULT_TIMEOUT)` (5 seconds).  The TCP stream is modelled by
the ordered list of commands serialized onto it; the ring is modelled by the
list of successive outcomes of `recv_timeout`: a response arriving in time, a
timeout (`Ok(None)` from `ipmpsc`), or an I/O error (`Err(_)`). -/

/-- Commands the adapter serializes to the interface (subset used by the
claims). -/
inductive UnrealCommand
  | initializeCmd (path : String)
  | addBreakpoint (bp : Breakpoint)
  | removeBreakpoint (bp : Breakpoint)
  deriving DecidableEq, Repr

/-- Synchronous responses from the interface. -/
inductive UnrealResponse
  | breakpointAdded (bp : Breakpoint)
  | breakpointRemoved (bp : Breakpoint)
  | watchCount (n : Nat)
  deriving DecidableEq, Repr

/-- One outcome of `Receiver::recv_timeout` on the shared ring: a response
arrived within the timeout, nothing arrived (`Ok(None)`), or an I/O error
(`Err(_)`). -/
inductive RecvOutcome
  | arrive (r : UnrealResponse)
  | silence
  | ioErr
  deriving DecidableEq, Repr

/-- The error taxonomy of `ChannelError` in `comm.rs`. -/
inductive ChannelError
  | timeout
  | connectionError
  | serializationError
  | protocolError
  deriving DecidableEq, Repr

/-- The observable state of a `DefaultChannel`: the commands serialized over
TCP so far and the pending outcomes on the shared-memory ring. -/
structure ChannelState where
  sent : List UnrealCommand
  ring : List RecvOutcome
  deriving DecidableEq, Repr

/-- Model of `Receiver::recv_timeout(DEFAULT_TIMEOUT)`: consume the next ring
outcome; an exhausted outcome list also means nothing arrived in time. -/
def recvTimeout (ring : List RecvOutcome) :
    List RecvOutcome × Except Unit (Option UnrealResponse) :=
  match ring with
  | [] => ([], .ok none)
  | .silence :: rest => (rest, .ok none)
  | .ioErr :: rest => (rest, .error ())
  | .arrive r :: rest => (rest, .ok (some r))

/-- Embedding of `DefaultChannel::add_breakpoint` (`comm.rs` lines 75-88):
serialize `AddBreakpoint(bp)` over TCP, then `recv_timeout` on the ring; a
receive error becomes `ConnectionError`, and the received value must match
`Some(UnrealResponse::BreakpointAdded(bp))`; anything else (including the
`None` produced by a timeout) falls to the catch-all arm and becomes
`ProtocolError`. -/
def DefaultChannel.addBreakpoint (st : ChannelState) (bp : Breakpoint) :
    ChannelState × Except ChannelError Breakpoint :=
  let st1 : ChannelState := { st with sent := st.sent ++ [.addBreakpoint bp] }
  let p := recvTimeout st1.ring
  let st2 : ChannelState := { st1 with ring := p.1 }
  match p.2 with
  | .error _ => (st2, .error .connectionError)
  | .ok response =>
    match response with
    | some (UnrealResponse.breakpointAdded bp2) => (st2, .ok bp2)
    | _ => (st2, .error .protocolError)

/-- Embedding of `DefaultChannel::remove_breakpoint` (`comm.rs` lines 90-93):
the body is `Ok(bp)` — nothing is serialized and nothing is received. -/
def DefaultChannel.removeBreakpoint (st : ChannelState) (bp : Breakpoint) :
    ChannelState × Except ChannelError Breakpoint :=
  (st, .ok bp)

/-! ## Claims C2, C4, C5 -/

/-- Decomposition of a packed reference into its three fields. -/
theorem packed_fields (c frame varIndex : Nat) (hf : frame < 2 ^ 30)
    (hx : varIndex < 2 ^ 32) :
    ((c + 1) * 2 ^ 62 + frame * 2 ^ 32 + varIndex) / 2 ^ 62 = c + 1 ∧
      ((c + 1) * 2 ^ 62 + frame * 2 ^ 32 + varIndex) / 2 ^ 32 % 2 ^ 30 = frame ∧
      ((c + 1) * 2 ^ 62 + frame * 2 ^ 32 + varIndex) % 2 ^ 32 = varIndex :=
  ⟨by omega, by omega, by omega⟩

/-- Round-trip helper: unpacking a packed valid triple recovers it. -/
theorem fromInt_toInt_of_valid (v : VariableReference) (h : v.valid) :
    VariableReference.fromInt (VariableReference.toInt v) = some v := by
  obtain ⟨kind, frame, varIndex⟩ := v
  obtain ⟨hf, hx⟩ := h
  cases kind
  · obtain ⟨h1, h2, h3⟩ := packed_fields 0 frame varIndex hf hx
    simp only [VariableReference.toInt, VariableReference.fromInt, WatchKind.tag]
    norm_num at h1 h2 h3 ⊢
    rw [h1, h2, h3]
  · obtain ⟨h1, h2, h3⟩ := packed_fields 1 frame varIndex hf hx
    simp only [VariableReference.toInt, VariableReference.fromInt, WatchKind.tag]
    norm_num at h1 h2 h3 ⊢
    rw [h1, h2, h3]
  · obtain ⟨h1, h2, h3⟩ := packed_fields 2 frame varIndex hf hx
    simp only [VariableReference.toInt, VariableReference.fromInt, WatchKind.tag]
    norm_num at h1 h2 h3 ⊢
    rw [h1, h2, h3]

/-- C2: for every valid triple `v = (watch kind, frame index, variable
index)` with each component in its representable range, the variable
reference codec satisfies `fromInt (toInt v) = some v`, and `fromInt 0 =
none` (0 is reserved to mean "no children"). -/
theorem variable_reference_round_trip (v : VariableReference) (h : v.valid) :
    VariableReference.fromInt (VariableReference.toInt v) = some v ∧
      VariableReference.fromInt 0 = none :=
  ⟨fromInt_toInt_of_valid v h, rfl⟩

/-- C2 witness: the concrete triple (User, 5, 7) round-trips and 0 unpacks to
none. -/
theorem variable_reference_round_trip_witness :
    VariableReference.valid ⟨WatchKind.userKind, 5, 7⟩ ∧
      VariableReference.fromInt
          (VariableReference.toInt ⟨WatchKind.userKind, 5, 7⟩)
        = some ⟨WatchKind.userKind, 5, 7⟩ ∧
      VariableReference.fromInt 0 = none := by
  refine ⟨by decide, ?_⟩
  exact variable_reference_round_trip ⟨WatchKind.userKind, 5, 7⟩ (by decide)

/-- C4: evaluating the code at the failing input.  `remove_breakpoint` on
breakpoint `("MYPACKAGE.SOMECLASS", 11)`, with a `BreakpointRemoved` response
pending on the shared-memory ring, serializes no command over TCP, consumes
nothing from the ring, and returns its argument unchanged — contradicting the
claim that it serializes a `RemoveBreakpoint` command, blocks on the ring and
returns the breakpoint carried by the interface's `BreakpointRemoved`
response. -/
theorem remove_breakpoint_is_stub :
    DefaultChannel.removeBreakpoint
        ⟨[], [RecvOutcome.arrive
                (UnrealResponse.breakpointRemoved ⟨"MYPACKAGE.SOMECLASS", 99⟩)]⟩
        ⟨"MYPACKAGE.SOMECLASS", 11⟩
      = (⟨[], [RecvOutcome.arrive
                (UnrealResponse.breakpointRemoved ⟨"MYPACKAGE.SOMECLASS", 99⟩)]⟩,
          Except.ok ⟨"MYPACKAGE.SOMECLASS", 11⟩) := rfl

/-- C5 counterexample: when nothing arrives on the ring within the 5-second
bound (`recv_timeout` yields `Ok(None)`), `add_breakpoint` returns
`ProtocolError`, not the `Timeout` error the claim names. -/
theorem add_breakpoint_timeout_yields_protocol_error :
    (DefaultChannel.addBreakpoint ⟨[], [RecvOutcome.silence]⟩ ⟨"PKG.CLS", 3⟩).2
        = Except.error ChannelError.protocolError ∧
      (DefaultChannel.addBreakpoint ⟨[], [RecvOutcome.silence]⟩ ⟨"PKG.CLS", 3⟩).2
        ≠ Except.error ChannelError.timeout := by
  refine ⟨rfl, ?_⟩
  intro hcontra
  simp [DefaultChannel.addBreakpoint, recvTimeout] at hcontra

/-- C5 amended: for the synchronous channel operation `add_breakpoint`, a
timeout (no response within the 5-second bound) yields `ProtocolError` (the
`Timeout` variant is never produced), an unexpected response variant yields
`ProtocolError`, and an I/O error on the ring yields `ConnectionError`. -/
theorem add_breakpoint_error_mapping (sent : List UnrealCommand)
    (rest : List RecvOutcome) (bp : Breakpoint) :
    (DefaultChannel.addBreakpoint ⟨sent, RecvOutcome.silence :: rest⟩ bp).2
        = Except.error ChannelError.protocolError ∧
      (DefaultChannel.addBreakpoint ⟨sent, RecvOutcome.ioErr :: rest⟩ bp).2
        = Except.error ChannelError.connectionError ∧
      ∀ r : UnrealResponse, (∀ b, r ≠ UnrealResponse.breakpointAdded b) →
        (DefaultChannel.addBreakpoint ⟨sent, RecvOutcome.arrive r :: rest⟩ bp).2
          = Except.error ChannelError.protocolError := by
  refine ⟨rfl, rfl, ?_⟩
  intro r hr
  cases r with
  | breakpointAdded b => exact absurd rfl (hr b)
  | breakpointRemoved b => rfl
  | watchCount n => rfl

/-- C5 witness: the error mapping evaluated at concrete inputs, including an
unexpected `WatchCount` response variant. -/
theorem add_breakpoint_error_mapping_witness :
    (DefaultChannel.addBreakpoint
        ⟨[], [RecvOutcome.arrive (UnrealResponse.watchCount 5)]⟩ ⟨"P.C", 1⟩).2
      = Except.error ChannelError.protocolError :=
  (add_breakpoint_error_mapping [] [] ⟨"P.C", 1⟩).2.2
    (UnrealResponse.watchCount 5) (by intro b h; cases h)

/-! ## Writer side of the DAP codec (`async_client.rs` lines 91-122)

`respond` wraps the response in a `ResponseProtocolMessage` carrying the next
`seq`, serializes it with serde_json and writes the resulting bytes to the
output sink; `send_event` does the same for events.  Serde serialization of
the DAP bodies is an external collaborator and is a parameter (`ser`), a
function of the assigned seq and the payload producing the JSON bytes. -/

/-- Writer state of an `AsyncClient`: the `seq` counter (an `i64` starting at
0) and the bytes written to the output sink so far. -/
structure WriterState where
  seq : Int
  out : List Nat
  deriving DecidableEq, Repr

/-- Embedding of `AsyncClient::next_seq`: `self.seq += 1; self.seq` with
`i64` wrapping. -/
def nextSeq (st : WriterState) : Int × WriterState :=
  let s := wrap64 (st.seq + 1)
  (s, { st with seq := s })

/-- Embedding of `AsyncClient::respond`: assign the next seq, serialize the
response protocol message, and write exactly those bytes to the output
sink. -/
def respond {Resp : Type} (ser : Int → Resp → List Nat) (st : WriterState)
    (r : Resp) : WriterState :=
  let p := nextSeq st
  { p.2 with out := p.2.out ++ ser p.1 r }

/-- Embedding of `AsyncClient::send_event`: assign the next seq, serialize
the event protocol message, and write exactly those bytes to the output
sink. -/
def sendEvent {Evt : Type} (ser : Int → Evt → List Nat) (st : WriterState)
    (e : Evt) : WriterState :=
  let p := nextSeq st
  { p.2 with out := p.2.out ++ ser p.1 e }

/-- The ASCII bytes of the string `Content-Length`. -/
def contentLengthBytes : List Nat := (String.toList "Content-Length").map Char.toNat

/-- C6: the claim is contradicted by the code.  `respond` and `send_event`
append to the output sink exactly the serde_json serialization of the
protocol message — no `Content-Length` header is written.  Concretely, an
emission whose JSON serialization is the two bytes of an empty JSON object
puts exactly those two bytes on the wire, which do not start with
`Content-Length`. -/
theorem respond_writes_no_content_length_header :
    (∀ (Resp : Type) (ser : Int → Resp → List Nat) (st : WriterState) (r : Resp),
        (respond ser st r).out = st.out ++ ser (wrap64 (st.seq + 1)) r) ∧
      (∀ (Evt : Type) (ser : Int → Evt → List Nat) (st : WriterState) (e : Evt),
        (sendEvent ser st e).out = st.out ++ ser (wrap64 (st.seq + 1)) e) ∧
      (respond (fun _ (_ : Unit) => [123, 125]) ⟨0, []⟩ ()).out = [123, 125] ∧
      ¬ contentLengthBytes <+:
          (respond (fun _ (_ : Unit) => [123, 125]) ⟨0, []⟩ ()).out := by
  refine ⟨fun _ _ _ _ => rfl, fun _ _ _ _ => rfl, rfl, ?_⟩
  intro hcontra
  have := hcontra.length_le
  simp [contentLengthBytes, respond, nextSeq] at this

/-- A session's emissions: each element is a `respond` call or a `send_event`
call with its payload. -/
inductive Emission (Resp Evt : Type)
  | resp (r : Resp)
  | evt (e : Evt)

/-- The seq values carried by the successive messages a sequence of
`respond` / `send_event` calls emits, starting from writer state `st`. -/
def assignedSeqs {Resp Evt : Type} (serResp : Int → Resp → List Nat)
    (serEvt : Int → Evt → List Nat) :
    WriterState → List (Emission Resp Evt) → List Int
  | _, [] => []
  | st, .resp r :: rest =>
      wrap64 (st.seq + 1) :: assignedSeqs serResp serEvt (respond serResp st r) rest
  | st, .evt e :: rest =>
      wrap64 (st.seq + 1) :: assignedSeqs serResp serEvt (sendEvent serEvt st e) rest

theorem wrap64_add_left (a b : Int) : wrap64 (wrap64 a + b) = wrap64 (a + b) := by
  unfold wrap64
  omega

theorem assignedSeqs_get {Resp Evt : Type} (serResp : Int → Resp → List Nat)
    (serEvt : Int → Evt → List Nat) (es : List (Emission Resp Evt))
    (st : WriterState) (k : Nat) (hk : k < es.length) :
    (assignedSeqs serResp serEvt st es).get? k = some (wrap64 (st.seq + k + 1)) := by
  induction es generalizing st k with
  | nil => simp at hk
  | cons e rest ih =>
    cases e with
    | resp r =>
      cases k with
      | zero => simp [assignedSeqs]
      | succ k =>
        have hrec := ih (respond serResp st r) k (by simpa using hk)
        simp only [assignedSeqs, List.get?_cons_succ]
        rw [hrec]
        have hseq : (respond serResp st r).seq = wrap64 (st.seq + 1) := rfl
        rw [hseq]
        congr 1
        unfold wrap64
        push_cast
        omega
    | evt ev =>
      cases k with
      | zero => simp [assignedSeqs]
      | succ k =>
        have hrec := ih (sendEvent serEvt st ev) k (by simpa using hk)
        simp only [assignedSeqs, List.get?_cons_succ]
        rw [hrec]
        have hseq : (sendEvent serEvt st ev).seq = wrap64 (st.seq + 1) := rfl
        rw [hseq]
        congr 1
        unfold wrap64
        push_cast
        omega

/-- C9: across all DAP messages an `AsyncClient` (fresh, `seq = 0`) emits in
a session — responses and events alike — the k-th emitted message carries seq
`k + 1` (1-origin, incremented on each emission irrespective of kind), so as
long as the `i64` counter does not overflow, any later message carries a
strictly greater seq than any earlier one. -/
theorem seq_strictly_monotonic {Resp Evt : Type} (serResp : Int → Resp → List Nat)
    (serEvt : Int → Evt → List Nat) (es : List (Emission Resp Evt)) (i j : Nat)
    (hij : i < j) (hj : j < es.length) (hbound : (j : Int) + 1 ≤ i64Max) :
    (assignedSeqs serResp serEvt ⟨0, []⟩ es).get? i = some ((i : Int) + 1) ∧
      (assignedSeqs serResp serEvt ⟨0, []⟩ es).get? j = some ((j : Int) + 1) ∧
      ((i : Int) + 1) < ((j : Int) + 1) := by
  have hi := assignedSeqs_get serResp serEvt es ⟨0, []⟩ i (lt_trans hij hj)
  have hjg := assignedSeqs_get serResp serEvt es ⟨0, []⟩ j hj
  have hrangei : wrap64 ((0 : Int) + i + 1) = (i : Int) + 1 := by
    unfold wrap64
    unfold i64Max at hbound
    omega
  have hrangej : wrap64 ((0 : Int) + j + 1) = (j : Int) + 1 := by
    unfold wrap64
    unfold i64Max at hbound
    omega
  rw [hrangei] at hi
  rw [hrangej] at hjg
  exact ⟨hi, hjg, by omega⟩

/-- C9 witness: a concrete session of three emissions (response, event,
response) carries seqs 1, 2, 3; the first and third are compared. -/
theorem seq_strictly_monotonic_witness :
    (assignedSeqs (fun _ (_ : Unit) => ([] : List Nat))
          (fun _ (_ : Unit) => ([] : List Nat)) ⟨0, []⟩
          [Emission.resp (), Emission.evt (), Emission.resp ()]).get? 0
        = some 1 ∧
      (assignedSeqs (fun _ (_ : Unit) => ([] : List Nat))
          (fun _ (_ : Unit) => ([] : List Nat)) ⟨0, []⟩
          [Emission.resp (), Emission.evt (), Emission.resp ()]).get? 2
        = some 3 ∧
      (1 : Int) < 3 := by
  have h := seq_strictly_monotonic (fun _ (_ : Unit) => ([] : List Nat))
    (fun _ (_ : Unit) => ([] : List Nat))
    [Emission.resp (), Emission.evt (), Emission.resp ()] 0 2
    (by decide) (by decide) (by norm_num [i64Max])
  simpa using h

/-! ## `set_breakpoints` (`connected_adapter.rs` lines 464-533)

The handler splits the source path into package and class, keys the class map
by the uppercased qualified name, removes every previously recorded
breakpoint from the engine (asserting each removal round-trips), then
installs the requested lines after `i32` narrowing and line-offset
translation.  The engine behind the `Connection` is a parameter: two
functions giving the line the engine echoes back for a removal and an
addition; the commands serialized to it are collected in a trace. -/

/-- The `ClassInfo` record of `connected_adapter.rs`. -/
structure ClassInfo where
  fileName : String
  packageName : String
  className : String
  breakpoints : List Int
  deriving DecidableEq, Repr

/-- Embedding of `ClassInfo::qualify`. -/
def ClassInfo.qualify (c : ClassInfo) : String :=
  c.packageName ++ "." ++ c.className

/-- Split a character list on a separator, keeping empty pieces, like Rust
`str::split(sep)`. -/
def splitOnChar (sep : Char) : List Char → List (List Char)
  | [] => [[]]
  | c :: rest =>
    let r := splitOnChar sep rest
    if c = sep then [] :: r
    else
      match r with
      | [] => [[c]]
      | h :: t => (c :: h) :: t

/-- Join character lists with a separator (inverse of `splitOnChar`). -/
def intercalateChar (sep : Char) : List (List Char) → List Char
  | [] => []
  | [x] => x
  | x :: xs => x ++ sep :: intercalateChar sep xs

/-- Uppercase one ASCII character, like Rust `u8::to_ascii_uppercase`. -/
def upChar (c : Char) : Char :=
  if 'a' ≤ c ∧ c ≤ 'z' then Char.ofNat (c.toNat - 32) else c

/-- Embedding of `String::make_ascii_uppercase`: uppercase the ASCII letters,
leave everything else alone. -/
def toUpperAscii (s : String) : String := ⟨s.data.map upChar⟩

/-- Embedding of Rust `Path::file_stem` on a file name: the whole name when
there is no embedded dot or when the only dot is leading, otherwise the
portion before the final dot. -/
def fileStem (s : String) : String :=
  let parts := splitOnChar '.' s.data
  match parts with
  | [] => s
  | [_] => s
  | first :: _ =>
    if first = [] ∧ parts.length = 2 then s
    else ⟨intercalateChar '.' parts.dropLast⟩

/-- Embedding of `split_source` (`connected_adapter.rs` lines 975-1003) over
Unix-style path syntax.  `Path::components` yields the non-empty
slash-separated components with `.` removed; walking from the right, the
file stem of the last `Normal` component is the class, one component is
skipped, and the next `Normal` component is the package (`..`, being a
`ParentDir` component, is not `Normal` and fails in the two checked
positions). -/
def splitSource (path : String) : Option (String × String) :=
  let comps := (splitOnChar '/' path.data).filter (fun c => c != [] && c != ['.'])
  match comps.reverse with
  | [] => none
  | fileName :: rest =>
    if fileName = ['.', '.'] then none
    else
      match rest with
      | [] => none
      | _parent :: rest2 =>
        match rest2 with
        | [] => none
        | pkg :: _ =>
          if pkg = ['.', '.'] then none
          else some (⟨pkg⟩, fileStem ⟨fileName⟩)

/-- The class map of the adapter, keyed by uppercased qualified name. -/
abbrev ClassMap := List (String × ClassInfo)

/-- Lookup in the class map. -/
def mapGet (m : ClassMap) (k : String) : Option ClassInfo :=
  match m with
  | [] => none
  | (k2, v) :: rest => if k2 = k then some v else mapGet rest k

/-- Insert-or-replace in the class map. -/
def mapSet (m : ClassMap) (k : String) (v : ClassInfo) : ClassMap :=
  match m with
  | [] => [(k, v)]
  | (k2, v2) :: rest =>
      if k2 = k then (k, v) :: rest else (k2, v2) :: mapSet rest k v

/-- A breakpoint command serialized to the engine, in order. -/
inductive EngineCmd
  | removeBp (cls : String) (line : Int)
  | addBp (cls : String) (line : Int)
  deriving DecidableEq, Repr

/-- Line-offset translation applied to a requested line before it is sent to
the engine: `+0` when the client declared one-based lines, else `+1`. -/
def lineOffset (oneBased : Bool) : Int := if oneBased then 0 else 1

/-- Symmetric translation applied to the engine's line before it is put in
the response: `0` when one-based, else `-1`. -/
def respOffset (oneBased : Bool) : Int := if oneBased then 0 else -1

/-- The removal loop of `set_breakpoints`: remove every recorded breakpoint
from the engine, asserting `removed.line == *bp` each time (`none` models the
panic of a failed assertion). -/
def removeAll (engineRemove : String → Int → Int) (qn : String) :
    List Int → Option (List EngineCmd)
  | [] => some []
  | l :: ls =>
    let removed := engineRemove qn l
    if removed = l then
      (removeAll engineRemove qn ls).map (fun t => EngineCmd.removeBp qn l :: t)
    else none

/-- The installation loop of `set_breakpoints`: for each requested line that
fits in an `i32`, translate it, send `AddBreakpoint`, record the line the
engine echoes, and put the back-translated line in the response; lines that
do not fit are skipped.  Returns the command trace, the recorded breakpoint
lines, and the response lines. -/
def addAll (oneBased : Bool) (engineAdd : String → Int → Int) (qn : String) :
    List Int → List EngineCmd × List Int × List Int
  | [] => ([], [], [])
  | l :: ls =>
    let rest := addAll oneBased engineAdd qn ls
    if inI32 l then
      let line := wrap32 (l + lineOffset oneBased)
      let newLine := engineAdd qn line
      (EngineCmd.addBp qn line :: rest.1,
        newLine :: rest.2.1,
        (newLine + respOffset oneBased) :: rest.2.2)
    else rest

/-- Errors `set_breakpoints` can surface: a path that does not split
(`InvalidFilename`), or the assertion on a removal round-trip failing. -/
inductive SBError
  | invalidFilename
  | assertionFailed
  deriving DecidableEq, Repr

/-- The observable outcome of a successful `set_breakpoints` call: the new
class map, the ordered trace of commands serialized to the engine, and the
lines of the response's breakpoints array. -/
structure SBOutcome where
  map : ClassMap
  trace : List EngineCmd
  response : List Int
  deriving DecidableEq, Repr

/-- Embedding of `UnrealscriptAdapter::set_breakpoints`. -/
def setBreakpoints (oneBased : Bool) (engineRemove engineAdd : String → Int → Int)
    (m : ClassMap) (path : String) (reqLines : List Int) :
    Except SBError SBOutcome :=
  match splitSource path with
  | none => .error .invalidFilename
  | some (pkg, cls) =>
    let qn := toUpperAscii (pkg ++ "." ++ cls)
    let ci :=
      match mapGet m qn with
      | some existing => existing
      | none => ⟨path, pkg, cls, []⟩
    match removeAll engineRemove qn ci.breakpoints with
    | none => .error .assertionFailed
    | some removeTrace =>
      let p := addAll oneBased engineAdd qn reqLines
      let ci2 : ClassInfo := { ci with breakpoints := p.2.1 }
      .ok ⟨mapSet m qn ci2, removeTrace ++ p.1, p.2.2⟩

/-- The breakpoint lines currently recorded in the class map for a key. -/
def recordedLines (m : ClassMap) (k : String) : List Int :=
  match mapGet m k with
  | some ci => ci.breakpoints
  | none => []

theorem mapGet_mapSet (m : ClassMap) (k : String) (v : ClassInfo) :
    mapGet (mapSet m k v) k = some v := by
  induction m with
  | nil => simp [mapSet, mapGet]
  | cons e rest ih =>
    obtain ⟨k2, v2⟩ := e
    by_cases hk : k2 = k
    · simp [mapSet, hk, mapGet]
    · simp [mapSet, hk, mapGet, ih]

theorem removeAll_echo (engineRemove : String → Int → Int) (qn : String)
    (ls : List Int) (h : ∀ l ∈ ls, engineRemove qn l = l) :
    removeAll engineRemove qn ls = some (ls.map (EngineCmd.removeBp qn)) := by
  induction ls with
  | nil => rfl
  | cons l ls ih =>
    have hl := h l (by simp)
    have hrest : ∀ x ∈ ls, engineRemove qn x = x := fun x hx => h x (by simp [hx])
    simp [removeAll, hl, ih hrest]

theorem addAll_echo_in_range (oneBased : Bool) (engineAdd : String → Int → Int)
    (qn : String) (ls : List Int)
    (hrange : ∀ l ∈ ls, inI32 l ∧ inI32 (l + lineOffset oneBased))
    (hadd : ∀ l, engineAdd qn l = l) :
    addAll oneBased engineAdd qn ls
      = (ls.map (fun l => EngineCmd.addBp qn (l + lineOffset oneBased)),
          ls.map (fun l => l + lineOffset oneBased),
          ls.map (fun l => l + lineOffset oneBased + respOffset oneBased)) := by
  induction ls with
  | nil => rfl
  | cons l ls ih =>
    have hl := hrange l (by simp)
    have hrest : ∀ x ∈ ls, inI32 x ∧ inI32 (x + lineOffset oneBased) :=
      fun x hx => hrange x (by simp [hx])
    have hw : wrap32 (l + lineOffset oneBased) = l + lineOffset oneBased := by
      have h2 := hl.2
      unfold inI32 i32Min i32Max at h2
      exact wrap32_eq_of_range _ (by omega) (by omega)
    simp only [addAll, ih hrest, if_pos hl.1, hw, hadd, List.map_cons]

/-- C3 counterexample: with one-based lines, an empty class map, an echoing
engine and the single requested line `2^31` (which does not fit in an `i32`),
`set_breakpoints` succeeds but records no breakpoint at all for the class, so
the map entry does not equal the translated request lines `[2^31]`. -/
theorem set_breakpoints_oversized_line_counterexample :
    setBreakpoints true (fun _ l => l) (fun _ l => l) []
        "/foo/src/MyPackage/Classes/SomeClass.uc" [2 ^ 31]
      = .ok ⟨[("MYPACKAGE.SOMECLASS",
              ⟨"/foo/src/MyPackage/Classes/SomeClass.uc", "MyPackage",
                "SomeClass", []⟩)], [], []⟩ ∧
      ([] : List Int) ≠ [(2 : Int) ^ 31 + lineOffset true] := by
  exact ⟨rfl, by simp⟩

/-- C3 amended: for every `set_breakpoints` call on a source whose path
splits into package and class, provided every requested line and its
translation fit in an `i32`, and given that the engine echoes each added and
removed line, the call succeeds, the class map entry keyed by the uppercased
qualified name records exactly the request lines after line-offset
translation (`+0` when one-based, else `+1`), and the command trace removes
every previously recorded breakpoint of that class before installing the new
ones. -/
theorem set_breakpoints_records_translated_lines (oneBased : Bool)
    (engineRemove engineAdd : String → Int → Int) (m : ClassMap)
    (path pkg cls : String) (reqLines : List Int)
    (hsplit : splitSource path = some (pkg, cls))
    (hrange : ∀ l ∈ reqLines, inI32 l ∧ inI32 (l + lineOffset oneBased))
    (hremove : ∀ l, engineRemove (toUpperAscii (pkg ++ "." ++ cls)) l = l)
    (hadd : ∀ l, engineAdd (toUpperAscii (pkg ++ "." ++ cls)) l = l) :
    ∃ out : SBOutcome,
      setBreakpoints oneBased engineRemove engineAdd m path reqLines = .ok out ∧
        (mapGet out.map (toUpperAscii (pkg ++ "." ++ cls))).map ClassInfo.breakpoints
          = some (reqLines.map (fun l => l + lineOffset oneBased)) ∧
        out.trace
          = (recordedLines m (toUpperAscii (pkg ++ "." ++ cls))).map
                (EngineCmd.removeBp (toUpperAscii (pkg ++ "." ++ cls)))
              ++ reqLines.map (fun l =>
                  EngineCmd.addBp (toUpperAscii (pkg ++ "." ++ cls))
                    (l + lineOffset oneBased)) := by
  unfold setBreakpoints
  rw [hsplit]
  set qn := toUpperAscii (pkg ++ "." ++ cls) with hqn
  have hadd2 := addAll_echo_in_range oneBased engineAdd qn reqLines hrange hadd
  cases hm : mapGet m qn with
  | none =>
    have hrm := removeAll_echo engineRemove qn ([] : List Int) (by simp)
    simp only [hm, hrm, hadd2, recordedLines]
    refine ⟨_, rfl, ?_, by simp [hm]⟩
    rw [mapGet_mapSet]
    rfl
  | some ci =>
    have hrm := removeAll_echo engineRemove qn ci.breakpoints
      (fun l _ => hremove l)
    simp only [hm, hrm, hadd2, recordedLines]
    refine ⟨_, rfl, ?_, by simp [hm, recordedLines]⟩
    rw [mapGet_mapSet]
    rfl

/-- C3 witness: the breakpoint-reset scenario of the spec (S2): zero-based
lines, an existing entry recording line 11, request line 26; the call
removes 11, adds 27, and records exactly `[27]`. -/
theorem set_breakpoints_records_translated_lines_witness :
    ∃ out : SBOutcome,
      setBreakpoints false (fun _ l => l) (fun _ l => l)
          [("MYPACKAGE.SOMECLASS",
            ⟨"/foo/src/MyPackage/Classes/SomeClass.uc", "MyPackage",
              "SomeClass", [11]⟩)]
          "/foo/src/MyPackage/Classes/SomeClass.uc" [26] = .ok out ∧
        (mapGet out.map (toUpperAscii ("MyPackage" ++ "." ++ "SomeClass"))).map
            ClassInfo.breakpoints
          = some ([26].map (fun l => l + lineOffset false)) ∧
        out.trace
          = (recordedLines
                [("MYPACKAGE.SOMECLASS",
                  ⟨"/foo/src/MyPackage/Classes/SomeClass.uc", "MyPackage",
                    "SomeClass", [11]⟩)]
                (toUpperAscii ("MyPackage" ++ "." ++ "SomeClass"))).map
                (EngineCmd.removeBp (toUpperAscii ("MyPackage" ++ "." ++ "SomeClass")))
              ++ [26].map (fun l =>
                  EngineCmd.addBp (toUpperAscii ("MyPackage" ++ "." ++ "SomeClass"))
                    (l + lineOffset false)) :=
  set_breakpoints_records_translated_lines false (fun _ l => l) (fun _ l => l)
    _ _ "MyPackage" "SomeClass" [26] rfl (by decide) (fun _ => rfl) (fun _ => rfl)

theorem addAll_skips_oversized (oneBased : Bool) (engineAdd : String → Int → Int)
    (qn : String) (pre post : List Int) (l : Int) (h : ¬ inI32 l) :
    addAll oneBased engineAdd qn (pre ++ l :: post)
      = addAll oneBased engineAdd qn (pre ++ post) := by
  induction pre with
  | nil => simp [addAll, h]
  | cons x xs ih => simp only [List.cons_append, addAll, List.append_eq, ih]

/-- C10: a requested breakpoint whose line does not fit in a 32-bit signed
integer is silently skipped: the whole `set_breakpoints` outcome — engine
command trace, class map, response array and success status — is identical
to the outcome for the same request without that entry (in particular no
`AddBreakpoint` is sent for it and no error is returned for it). -/
theorem set_breakpoints_skips_oversized (oneBased : Bool)
    (engineRemove engineAdd : String → Int → Int) (m : ClassMap) (path : String)
    (pre post : List Int) (l : Int) (h : ¬ inI32 l) :
    setBreakpoints oneBased engineRemove engineAdd m path (pre ++ l :: post)
      = setBreakpoints oneBased engineRemove engineAdd m path (pre ++ post) := by
  unfold setBreakpoints
  cases hs : splitSource path with
  | none => rfl
  | some pc =>
    obtain ⟨pkg, cls⟩ := pc
    simp only [addAll_skips_oversized _ _ _ _ _ _ h]

/-- C10 witness: with zero-based lines a request `[10, 2^31, 20]` behaves
exactly like `[10, 20]`, which succeeds recording lines 11 and 21. -/
theorem set_breakpoints_skips_oversized_witness :
    setBreakpoints false (fun _ l => l) (fun _ l => l) []
        "/foo/src/MyPackage/Classes/SomeClass.uc" ([10] ++ (2 ^ 31) :: [20])
      = setBreakpoints false (fun _ l => l) (fun _ l => l) []
          "/foo/src/MyPackage/Classes/SomeClass.uc" ([10] ++ [20]) ∧
      setBreakpoints false (fun _ l => l) (fun _ l => l) []
          "/foo/src/MyPackage/Classes/SomeClass.uc" ([10] ++ [20])
        = .ok ⟨[("MYPACKAGE.SOMECLASS",
                ⟨"/foo/src/MyPackage/Classes/SomeClass.uc", "MyPackage",
                  "SomeClass", [11, 21]⟩)],
              [EngineCmd.addBp "MYPACKAGE.SOMECLASS" 11,
                EngineCmd.addBp "MYPACKAGE.SOMECLASS" 21], [10, 20]⟩ :=
  ⟨set_breakpoints_skips_oversized false (fun _ l => l) (fun _ l => l) []
      "/foo/src/MyPackage/Classes/SomeClass.uc" [10] [20] (2 ^ 31) (by decide),
    rfl⟩

/-! ## `evaluate` (`connected_adapter.rs` lines 221-231 and 751-791)

The expression pre-filter rejects empty expressions, numeric literals,
quoted strings and language keywords without contacting the engine.  The
`common` crate's `FrameIndex::create` is not among the sources and is
modelled from the spec.  The engine behind the connection is abstracted by
two functions (`Evaluate` and `WatchCount`); the commands sent to it are
collected in a trace. -/

/-- The fixed keyword list `UC_KEYWORDS` of `connected_adapter.rs`
(173 entries, byte-for-byte). -/
def UC_KEYWORDS : List String := [
    "default", "self", "super", "global", "class", "interface",
    "within", "const", "enum", "struct", "var", "local",
    "replication", "operator", "preoperator", "postoperator", "delegate", "function",
    "event", "state", "map", "defaultproperties", "structdefaultproperties", "for",
    "foreach", "return", "break", "continue", "stop", "case",
    "switch", "until", "do", "while", "else", "if",
    "ignores", "unreliable", "reliable", "always", "cpptext", "cppstruct",
    "structcpptext", "array", "byte", "int", "float", "string",
    "pointer", "button", "bool", "name", "true", "false",
    "none", "extends", "expands", "public", "protected", "protectedwrite",
    "private", "privatewrite", "localized", "out", "ref", "optional",
    "init", "skip", "coerce", "final", "latent", "singular",
    "static", "exec", "iterator", "simulated", "auto", "noexport",
    "noexportheader", "editconst", "edfindable", "editinline", "editinlinenotify", "editinlineuse",
    "edithide", "editconstarray", "editfixedsize", "editoronly", "editortextbox", "noclear",
    "noimport", "nontransactional", "serializetext", "config", "globalconfig", "intrinsic",
    "native", "nativereplication", "nativeonly", "export", "abstract", "perobjectconfig",
    "perobjectlocalized", "placeable", "notplaceable", "nousercreate", "safereplace", "dependson",
    "showcategories", "hidecategories", "guid", "long", "transient", "nontransient",
    "cache", "interp", "repretry", "repnotify", "notforconsole", "archetype",
    "crosslevelactive", "crosslevelpassive", "allowabstract", "automated", "travel", "input",
    "cacheexempt", "hidedropdown", "instanced", "databinding", "duplicatetransient", "classredirect",
    "parseconfig", "editinlinenew", "noteditinlinenew", "exportstructs", "dllbind", "deprecated",
    "strictconfig", "atomic", "atomicwhencooked", "immutable", "immutablewhencooked", "virtual",
    "server", "client", "dllimport", "demorecording", "k2call", "k2pure",
    "k2override", "collapsecategories", "dontcollapsecategories", "implements", "classgroup", "autoexpandcategories",
    "autocollapsecategories", "dontautocollapsecategories", "dontsortcategories", "inherits", "forcescriptorder", "begin",
    "object", "end", "new", "goto", "assert", "vect",
    "rot", "rng", "arraycount", "enumcount", "sizeof"]

/-- Embedding of `is_number_str`: every character is an ASCII digit or a
dot. -/
def isNumberStr (s : String) : Bool :=
  s.data.all (fun ch => ch.isDigit || ch == '.')

/-- The double-quote character. -/
def dquoteChar : Char := Char.ofNat 34

/-- The single-quote character. -/
def squoteChar : Char := Char.ofNat 39

/-- Embedding of `is_string_str`: the expression starts and ends with a
double quote, or starts and ends with a single quote. -/
def isStringStr (s : String) : Bool :=
  (s.data.head? == some dquoteChar && s.data.getLast? == some dquoteChar)
    || (s.data.head? == some squoteChar && s.data.getLast? == some squoteChar)

/-- Embedding of `is_invalid_expression`: empty, numeric, quoted, or one of
the fixed keywords. -/
def isInvalidExpression (expr : String) : Bool :=
  expr.data.isEmpty || isNumberStr expr || isStringStr expr
    || UC_KEYWORDS.contains expr

/-- Modelled from the spec: `FrameIndex::create` of the `common` crate (not
among the sources).  A frame index is a non-negative integer with a 32-bit
representable upper bound (spec section 3); `create` fails outside that
range.  `TOP_FRAME = 0`. -/
def frameIndexCreate (n : Int) : Option Nat :=
  if 0 ≤ n ∧ n < 2 ^ 32 then some n.toNat else none

/-- The `Variable` record produced by the engine (`common` crate; spec
section 3). -/
structure EvalVariable where
  name : String
  value : String
  ty : String
  index : Nat
  hasChildren : Bool
  isArray : Bool
  deriving DecidableEq, Repr

/-- Per-request adapter errors relevant to the modelled handlers. -/
inductive AdapterError
  | limitExceeded
  | watchError
  deriving DecidableEq, Repr

/-- A command the handlers send over the connection to the interface. -/
inductive EngineCall
  | evaluateCall (frame : Nat) (expr : String)
  | watchCountCall (kind : WatchKind) (parent : Nat)
  | variablesCall (kind : WatchKind) (frame parent start count : Nat)
  deriving DecidableEq, Repr

/-- The body of an `Evaluate` response: result string, optional type, packed
variable reference (0 = no children), child count, array flag. -/
structure EvalResponse where
  result : String
  ty : Option String
  varRef : Nat
  childCount : Int
  isArray : Bool
  deriving DecidableEq, Repr

/-- Embedding of `get_child_count`: ask the engine for the watch count of a
structured variable; an error or an overflowing count becomes 0. -/
def getChildCount (engineWatchCount : WatchKind → Nat → Option Nat)
    (kind : WatchKind) (v : EvalVariable) : Int :=
  if v.hasChildren then
    match engineWatchCount kind v.index with
    | some n => if (n : Int) ≤ i64Max then (n : Int) else 0
    | none => 0
  else 0

/-- Embedding of `UnrealscriptAdapter::evaluate`: narrow the frame id (an
out-of-range id fails with `LimitExceeded` before anything else), apply the
expression pre-filter (returning the expression verbatim with no engine
traffic), otherwise forward to the engine, taking the last returned variable
(`WatchError` when the engine returns none). -/
def evaluate (engineEvaluate : Nat → String → List EvalVariable)
    (engineWatchCount : WatchKind → Nat → Option Nat)
    (frameId : Option Int) (expr : String) :
    Except AdapterError EvalResponse × List EngineCall :=
  match (match frameId with
          | some f => frameIndexCreate f
          | none => some 0) with
  | none => (.error .limitExceeded, [])
  | some frame =>
    if isInvalidExpression expr then
      (.ok ⟨expr, none, 0, 0, false⟩, [])
    else
      let vars := engineEvaluate frame expr
      match vars.getLast? with
      | none => (.error .watchError, [EngineCall.evaluateCall frame expr])
      | some v =>
        let cc := getChildCount engineWatchCount WatchKind.userKind v
        let wcTrace :=
          if v.hasChildren then [EngineCall.watchCountCall WatchKind.userKind v.index]
          else []
        (.ok ⟨v.value, some v.ty,
            VariableReference.toInt ⟨WatchKind.userKind, frame, v.index⟩,
            cc, v.isArray⟩,
          EngineCall.evaluateCall frame expr :: wcTrace)


/-- Any member of a list is found by `List.contains`. -/
theorem contains_of_mem {a : String} {l : List String} (h : a ∈ l) :
    l.contains a = true :=
  List.elem_eq_true_of_mem h

/-- C8 counterexample: the expression `true` is a keyword the pre-filter
accepts, yet a request carrying it together with the out-of-range frame id
`-1` is rejected with `LimitExceeded` before the pre-filter runs — it does
not return the expression verbatim. -/
theorem evaluate_prefilter_counterexample :
    isInvalidExpression "true" = true ∧
      (evaluate (fun _ _ => []) (fun _ _ => none) (some (-1)) "true").1
        = Except.error AdapterError.limitExceeded ∧
      (evaluate (fun _ _ => []) (fun _ _ => none) (some (-1)) "true").1
        ≠ Except.ok ⟨"true", none, 0, 0, false⟩ := by
  refine ⟨rfl, rfl, ?_⟩
  intro hcontra
  rw [show (evaluate (fun _ _ => []) (fun _ _ => none) (some (-1)) "true").1
      = Except.error AdapterError.limitExceeded from rfl] at hcontra
  cases hcontra

/-- C8 amended: for every evaluate request whose frame id (when present) is a
valid frame index and whose expression is empty, consists only of ASCII
digits and dots, is quoted, or equals one of the fixed list of 173 engine
keywords, the adapter returns the expression verbatim with no type and
variable reference 0, and sends nothing over the connection. -/
theorem evaluate_prefilter_no_engine_traffic
    (engineEvaluate : Nat → String → List EvalVariable)
    (engineWatchCount : WatchKind → Nat → Option Nat)
    (frameId : Option Int) (expr : String)
    (hframe : (match frameId with
                | some f => frameIndexCreate f
                | none => some 0).isSome)
    (hexpr : expr.data = [] ∨ isNumberStr expr = true ∨ isStringStr expr = true
      ∨ expr ∈ UC_KEYWORDS) :
    evaluate engineEvaluate engineWatchCount frameId expr
        = (Except.ok ⟨expr, none, 0, 0, false⟩, []) ∧
      UC_KEYWORDS.length = 173 := by
  refine ⟨?_, rfl⟩
  have hinv : isInvalidExpression expr = true := by
    unfold isInvalidExpression
    rcases hexpr with h | h | h | h
    · simp [h]
    · simp [h]
    · simp [h]
    · rw [contains_of_mem h]
      simp
  unfold evaluate
  cases hfc : (match frameId with
                | some f => frameIndexCreate f
                | none => some 0) with
  | none => rw [hfc] at hframe; cases hframe
  | some frame => simp [hinv]

/-- C8 witness: evaluating the keyword `true` with no frame id returns it
verbatim with no type, variable reference 0 and an empty engine trace. -/
theorem evaluate_prefilter_no_engine_traffic_witness :
    evaluate (fun _ _ => []) (fun _ _ => none) none "true"
        = (Except.ok ⟨"true", none, 0, 0, false⟩, []) ∧
      UC_KEYWORDS.length = 173 :=
  evaluate_prefilter_no_engine_traffic (fun _ _ => []) (fun _ _ => none) none
    "true" (by decide)
    (Or.inr (Or.inr (Or.inr (by decide))))


/-! ## `variables` (`connected_adapter.rs` lines 794-873)

The handler unpacks the wire reference, narrows `start`/`count`, asks the
engine for the children, sends an `Invalidated` event for the frame when the
engine flagged `invalidated` and the client advertised the capability and the
stack hack is off, and then (back in `process_messages`) the `Variables`
response is sent.  The value of the model is the ordered list of DAP
messages put on the wire for the request. -/

/-- Client capability flags relevant to the handlers (`ClientConfig`). -/
structure ClientConfig where
  supportsInvalidatedEvent : Bool
  enableStackHack : Bool
  supportsVariableType : Bool
  deriving DecidableEq, Repr

/-- One variable entry of a DAP `Variables` response. -/
structure DapVariable where
  name : String
  value : String
  ty : Option String
  varRef : Nat
  childCount : Int
  isArray : Bool
  deriving DecidableEq, Repr

/-- A DAP message emitted while serving one `Variables` request. -/
inductive DapMsg
  | variablesResponse (vars : List DapVariable)
  | invalidatedEvent (frameId : Nat)
  | errorResponse (e : AdapterError)
  deriving DecidableEq, Repr

/-- Modelled from the spec: the wire `variablesReference` is an `i64`
unpacked with `VariableReference::from_int`; a negative value cannot be a
packed triple. -/
def fromDapRef (n : Int) : Option VariableReference :=
  if 0 ≤ n then VariableReference.fromInt n.toNat else none

/-- Translation of one engine variable into a DAP variable (the body of the
map in `UnrealscriptAdapter::variables`): child count via `get_child_count`,
a packed reference when the variable has children (0 otherwise), and the
type only when the client advertised `supportsVariableType`. -/
def translateVariable (cfg : ClientConfig)
    (engineWatchCount : WatchKind → Nat → Option Nat) (kind : WatchKind)
    (frame : Nat) (v : EvalVariable) : DapVariable :=
  let cnt := getChildCount engineWatchCount kind v
  let varRef :=
    if v.hasChildren then VariableReference.toInt ⟨kind, frame, v.index⟩ else 0
  ⟨v.name, v.value, if cfg.supportsVariableType then some v.ty else none,
    varRef, cnt, v.isArray⟩

/-- Embedding of `UnrealscriptAdapter::variables` plus the response emission
of `process_messages`: the ordered list of DAP messages put on the wire for
one `Variables` request.  The engine behind the connection is abstracted by
`engineVariables` (kind, frame, parent, start, count, yielding the variables
and the `invalidated` flag) and `engineWatchCount`. -/
def handleVariables (cfg : ClientConfig)
    (engineVariables : WatchKind → Nat → Nat → Nat → Nat → List EvalVariable × Bool)
    (engineWatchCount : WatchKind → Nat → Option Nat)
    (varsRef : Int) (start count : Option Int) : List DapMsg :=
  match fromDapRef varsRef with
  | none => [.errorResponse .limitExceeded]
  | some v =>
    let s := start.getD 0
    let c := count.getD 0
    if 0 ≤ s then
      if 0 ≤ c then
        let p := engineVariables v.kind v.frame v.varIndex s.toNat c.toNat
        let events :=
          if p.2 && cfg.supportsInvalidatedEvent && !cfg.enableStackHack then
            [DapMsg.invalidatedEvent v.frame]
          else []
        events ++ [DapMsg.variablesResponse
          (p.1.map (translateVariable cfg engineWatchCount v.kind v.frame))]
      else [.errorResponse .limitExceeded]
    else [.errorResponse .limitExceeded]

/-- C7 counterexample: with `supportsInvalidatedEvent = true`, stack hack
off, and an engine that flags `invalidated = true`, the request emits the
`Invalidated` event first and the `Variables` response second — not the
response followed by the event as the claim orders them. -/
theorem variables_event_order_counterexample :
    handleVariables ⟨true, false, true⟩ (fun _ _ _ _ _ => ([], true))
        (fun _ _ => none)
        ((VariableReference.toInt ⟨WatchKind.localKind, 2, 5⟩ : Nat) : Int)
        none none
      = [DapMsg.invalidatedEvent 2, DapMsg.variablesResponse []] ∧
      [DapMsg.invalidatedEvent 2, DapMsg.variablesResponse []]
        ≠ [DapMsg.variablesResponse [], DapMsg.invalidatedEvent 2] := by
  exact ⟨rfl, by decide⟩

/-- C7 amended: for every `Variables` request carrying a valid packed
reference and non-negative `start`/`count`, the adapter emits the
`Invalidated` event for the unpacked frame if and only if the engine flagged
`invalidated`, the client advertised `supportsInvalidatedEvent`, and the
stack hack is disabled — and when emitted, the event is sent immediately
before (not after) the `Variables` response for that request. -/
theorem variables_invalidated_emission (cfg : ClientConfig)
    (engineVariables : WatchKind → Nat → Nat → Nat → Nat → List EvalVariable × Bool)
    (engineWatchCount : WatchKind → Nat → Option Nat)
    (v : VariableReference) (hv : v.valid) (start count : Option Int)
    (hs : 0 ≤ start.getD 0) (hc : 0 ≤ count.getD 0) :
    handleVariables cfg engineVariables engineWatchCount
        ((VariableReference.toInt v : Nat) : Int) start count
      = (if (engineVariables v.kind v.frame v.varIndex (start.getD 0).toNat
              (count.getD 0).toNat).2
            && cfg.supportsInvalidatedEvent && !cfg.enableStackHack then
            [DapMsg.invalidatedEvent v.frame]
          else [])
        ++ [DapMsg.variablesResponse
            ((engineVariables v.kind v.frame v.varIndex (start.getD 0).toNat
                (count.getD 0).toNat).1.map
              (translateVariable cfg engineWatchCount v.kind v.frame))] := by
  have href : fromDapRef ((VariableReference.toInt v : Nat) : Int) = some v := by
    unfold fromDapRef
    rw [if_pos (Int.natCast_nonneg _)]
    rw [Int.toNat_natCast]
    exact fromInt_toInt_of_valid v hv
  unfold handleVariables
  rw [href]
  simp only [if_pos hs, if_pos hc]

/-- C7 witness: a concrete request (valid reference for frame 0, engine
flagging invalidated, capability on, stack hack off) emits exactly the
`Invalidated` event for frame 0 followed by the empty `Variables`
response. -/
theorem variables_invalidated_emission_witness :
    handleVariables ⟨true, false, true⟩ (fun _ _ _ _ _ => ([], true))
        (fun _ _ => none)
        ((VariableReference.toInt ⟨WatchKind.globalKind, 0, 0⟩ : Nat) : Int)
        none none
      = (if ((fun (_ : WatchKind) (_ _ _ _ : Nat) => (([] : List EvalVariable), true))
              WatchKind.globalKind 0 0 0 0).2 && true && !false then
            [DapMsg.invalidatedEvent 0]
          else [])
        ++ [DapMsg.variablesResponse []] :=
  variables_invalidated_emission ⟨true, false, true⟩
    (fun _ _ _ _ _ => ([], true)) (fun _ _ => none)
    ⟨WatchKind.globalKind, 0, 0⟩ (by decide) none none (by decide) (by decide)


/-! ## Reader side of the DAP codec (`async_client.rs` lines 43-89, 124-190)

`AsyncClient::next` is a loop over the three reader states.  In *Header* and
*Sep* the source calls `read_until(b'\x0a')`, which appends bytes up to and
including the next newline (or up to end of stream) to the accumulator; in
*Body* it moves at most `next_msg_size - buf.len()` bytes from the stream
into the accumulator.  The byte stream is modelled by the list of bytes not
yet consumed; serde_json deserialization of the request body is an external
collaborator and is a parameter `decode`.

`process_header` uses `str::from_utf8`, `str::trim_end` (Unicode
white-space), `str::split(':')` and `usize::from_str`; these library
functions are embedded below. -/

/-- Whether a byte is a UTF-8 continuation byte. -/
def isCont (b : Nat) : Bool := 128 ≤ b && b < 192

/-- Embedding of `str::from_utf8`: strict UTF-8 decoding, rejecting
continuation-byte starts, overlong forms, surrogates and code points beyond
U+10FFFF. -/
def utf8Decode : List Nat → Option (List Char)
  | [] => some []
  | b :: rest =>
    if b < 128 then
      (utf8Decode rest).map (fun cs => Char.ofNat b :: cs)
    else if b < 194 then none
    else if b < 224 then
      match rest with
      | b1 :: rest2 =>
        if isCont b1 then
          (utf8Decode rest2).map (fun cs =>
            Char.ofNat ((b - 192) * 64 + (b1 - 128)) :: cs)
        else none
      | _ => none
    else if b < 240 then
      match rest with
      | b1 :: b2 :: rest3 =>
        if isCont b1 && isCont b2 then
          let cp := (b - 224) * 4096 + (b1 - 128) * 64 + (b2 - 128)
          if cp < 2048 then none
          else if 55296 ≤ cp ∧ cp < 57344 then none
          else (utf8Decode rest3).map (fun cs => Char.ofNat cp :: cs)
        else none
      | _ => none
    else if b < 245 then
      match rest with
      | b1 :: b2 :: b3 :: rest4 =>
        if isCont b1 && isCont b2 && isCont b3 then
          let cp := (b - 240) * 262144 + (b1 - 128) * 4096
            + (b2 - 128) * 64 + (b3 - 128)
          if cp < 65536 then none
          else if 1114111 < cp then none
          else (utf8Decode rest4).map (fun cs => Char.ofNat cp :: cs)
        else none
      | _ => none
    else none

/-- Embedding of Rust `char::is_whitespace` (the Unicode `White_Space`
property). -/
def isRustWhitespace (c : Char) : Bool :=
  let n := c.toNat
  (9 ≤ n && n ≤ 13) || n == 32 || n == 133 || n == 160 || n == 5760
    || (8192 ≤ n && n ≤ 8202) || n == 8232 || n == 8233 || n == 8239
    || n == 8287 || n == 12288

/-- Embedding of `str::trim_end`. -/
def trimEnd (cs : List Char) : List Char :=
  (cs.reverse.dropWhile isRustWhitespace).reverse

/-- Decimal value of a digit list. -/
def digitsVal (ds : List Char) : Nat :=
  ds.foldl (fun a c => a * 10 + (c.toNat - 48)) 0

/-- Strip one optional leading plus sign (part of `usize::from_str`). -/
def stripPlus (cs : List Char) : List Char :=
  match cs with
  | c :: t => if c = '+' then t else cs
  | [] => cs

/-- Embedding of `usize::from_str` (64-bit `usize`): an optional leading
plus sign, then one or more ASCII digits, failing on overflow past
`2^64 - 1`. -/
def parseUsize (cs : List Char) : Option Nat :=
  let ds := stripPlus cs
  if ds.isEmpty then none
  else if ds.all Char.isDigit then
    let v := digitsVal ds
    if v ≤ 2 ^ 64 - 1 then some v else none
  else none

/-- Embedding of `AsyncClient::process_header`: the accumulator must be
well-formed UTF-8 and, after trimming trailing whitespace, split on the
colon into exactly the field `Content-Length` and a parseable length. -/
def processHeader (buf : List Nat) : Option Nat :=
  match utf8Decode buf with
  | none => none
  | some cs =>
    let spl := splitOnChar ':' (trimEnd cs)
    match spl with
    | [k, v] => if k = "Content-Length".data then parseUsize v else none
    | _ => none

/-- The carriage-return character. -/
def crChar : Char := Char.ofNat 13

/-- The line-feed character. -/
def lfChar : Char := Char.ofNat 10

/-- Embedding of `AsyncClient::process_separator`: the accumulator must be
well-formed UTF-8 equal to the two-character sequence CR LF. -/
def processSeparator (buf : List Nat) : Bool :=
  match utf8Decode buf with
  | none => false
  | some cs => cs == [crChar, lfChar]

/-- Embedding of `read_until(b'\x0a')` on the modelled stream: the bytes up
to and including the first newline (or the whole stream if none), and the
rest. -/
def readUntilNL : List Nat → List Nat × List Nat
  | [] => ([], [])
  | b :: rest =>
    if b = 10 then ([10], rest)
    else
      let p := readUntilNL rest
      (b :: p.1, p.2)

/-- The reader states of `AsyncClient` (`State` in `async_client.rs`). -/
inductive RState
  | header
  | sep
  | body
  deriving DecidableEq, Repr

/-- The reader-relevant fields of an `AsyncClient`: current state, the
accumulator `buf`, and `next_msg_size`. -/
structure ReaderState where
  st : RState
  buf : List Nat
  sz : Nat
  deriving DecidableEq, Repr

/-- Result of one `next()` call: orderly end of stream (`Ok(None)`), a
framing error, or a decoded request (`Ok(Some(_))`). -/
inductive NextResult (α : Type)
  | eofNone
  | errData
  | msg (r : α)

theorem readUntilNL_snd_length (inp : List Nat) (h : inp ≠ []) :
    (readUntilNL inp).2.length < inp.length := by
  induction inp with
  | nil => exact absurd rfl h
  | cons b rest ih =>
    by_cases hb : b = 10
    · simp [readUntilNL, hb]
    · simp only [readUntilNL, if_neg hb]
      cases rest with
      | nil => simp [readUntilNL]
      | cons c rs =>
        have hlt := ih (by simp)
        simp only [List.length_cons] at hlt ⊢
        omega

/-- Embedding of the loop of `AsyncClient::next`: in *Header* and *Sep* read
a line, append it to the accumulator, and process it; in *Body* move at most
`next_msg_size - buf.len()` bytes into the accumulator, never over-reading,
and decode once full.  A `fill_buf`/`read_until` that yields no bytes is the
orderly end of stream.  Returns the result together with the reader state
and the unconsumed remainder of the stream. -/
def readNext {α : Type} (decode : List Nat → Option α) (r : ReaderState)
    (inp : List Nat) : NextResult α × ReaderState × List Nat :=
  match r.st with
  | .header =>
    if h : inp = [] then (.eofNone, r, inp)
    else
      let p := readUntilNL inp
      let buf2 := r.buf ++ p.1
      match processHeader buf2 with
      | some n => readNext decode ⟨.sep, [], n⟩ p.2
      | none => (.errData, ⟨.header, buf2, r.sz⟩, p.2)
  | .sep =>
    if h : inp = [] then (.eofNone, r, inp)
    else
      let p := readUntilNL inp
      let buf2 := r.buf ++ p.1
      if processSeparator buf2 then readNext decode ⟨.body, [], r.sz⟩ p.2
      else (.errData, ⟨.sep, buf2, r.sz⟩, p.2)
  | .body =>
    if h : inp = [] then (.eofNone, r, inp)
    else
      if r.buf.length + inp.length ≤ r.sz then
        let buf2 := r.buf ++ inp
        if buf2.length = r.sz then
          match decode buf2 with
          | some m => (.msg m, ⟨.header, [], r.sz⟩, [])
          | none => (.errData, ⟨.header, [], r.sz⟩, [])
        else readNext decode ⟨.body, buf2, r.sz⟩ []
      else
        if r.sz < r.buf.length then (.errData, r, inp)
        else
          let used := r.sz - r.buf.length
          let buf2 := r.buf ++ inp.take used
          match decode buf2 with
          | some m => (.msg m, ⟨.header, [], r.sz⟩, inp.drop used)
          | none => (.errData, ⟨.header, [], r.sz⟩, inp.drop used)
termination_by inp.length
decreasing_by
  · exact readUntilNL_snd_length inp h
  · exact readUntilNL_snd_length inp h
  · simp only [List.length_nil]
    exact List.length_pos.mpr h


theorem readUntilNL_append (a b : List Nat) (h : ¬ 10 ∈ a) :
    readUntilNL (a ++ 10 :: b) = (a ++ [10], b) := by
  induction a with
  | nil => simp [readUntilNL]
  | cons x xs ih =>
    have hx : x ≠ 10 := by
      intro hc
      exact h (by simp [hc])
    have hxs : ¬ 10 ∈ xs := fun hc => h (by simp [hc])
    simp [readUntilNL, hx, ih hxs]

theorem parseUsize_digits (ds : List Char) (hds : ds ≠ [])
    (hdig : ∀ c ∈ ds, c.isDigit = true) (hmax : digitsVal ds ≤ 2 ^ 64 - 1) :
    parseUsize ds = some (digitsVal ds) := by
  unfold parseUsize
  have hstrip : stripPlus ds = ds := by
    unfold stripPlus
    cases ds with
    | nil => rfl
    | cons c t =>
      have hc := hdig c (by simp)
      by_cases hplus : c = '+'
      · rw [hplus] at hc
        exact absurd hc (by decide)
      · simp [hplus]
  rw [hstrip]
  have hempty : ds.isEmpty = false := by
    cases ds with
    | nil => exact absurd rfl hds
    | cons c t => rfl
  have hall : ds.all Char.isDigit = true := List.all_eq_true.mpr hdig
  simp only [hempty, hall, Bool.false_eq_true, if_false, if_true, hmax, if_pos]

/-- A buffer holding a header line that decodes, trims and splits into the
`Content-Length` field and digits is accepted by `process_header` with the
digits' value. -/
theorem processHeader_of (pre : List Nat) (cs ds : List Char) (n : Nat)
    (hutf : utf8Decode (pre ++ [10]) = some cs)
    (hsplit : splitOnChar ':' (trimEnd cs) = ["Content-Length".data, ds])
    (hds : ds ≠ []) (hdig : ∀ c ∈ ds, c.isDigit = true)
    (hval : digitsVal ds = n) (hmax : n ≤ 2 ^ 64 - 1) :
    processHeader (pre ++ [10]) = some n := by
  unfold processHeader
  rw [hutf]
  simp only [hsplit, if_true]
  rw [parseUsize_digits ds hds hdig (by omega), hval]

/-- One `next()` loop iteration in the *Header* state on a stream starting
with an accepted header line: consume exactly the line and move to *Sep* with
a cleared accumulator and the parsed size. -/
theorem readNext_header_step {α : Type} (decode : List Nat → Option α) (m : Nat)
    (pre strm : List Nat) (n : Nat) (hpre : ¬ 10 ∈ pre)
    (hph : processHeader (pre ++ [10]) = some n) :
    readNext decode ⟨RState.header, [], m⟩ (pre ++ 10 :: strm)
      = readNext decode ⟨RState.sep, [], n⟩ strm := by
  have hne : pre ++ 10 :: strm ≠ [] := by simp
  conv_lhs => rw [readNext.eq_def]
  simp only [dif_neg hne, readUntilNL_append pre strm hpre, List.nil_append, hph]

/-- One `next()` loop iteration in the *Sep* state on a stream starting with
the exact separator: consume it and move to *Body* with a cleared
accumulator. -/
theorem readNext_sep_step {α : Type} (decode : List Nat → Option α) (n : Nat)
    (strm : List Nat) :
    readNext decode ⟨RState.sep, [], n⟩ (13 :: 10 :: strm)
      = readNext decode ⟨RState.body, [], n⟩ strm := by
  have hne : (13 : Nat) :: 10 :: strm ≠ [] := by simp
  have hru : readUntilNL (13 :: 10 :: strm) = ([13, 10], strm) :=
    readUntilNL_append [13] strm (by decide)
  conv_lhs => rw [readNext.eq_def]
  simp only [dif_neg hne, hru, List.nil_append]
  rw [if_pos (show processSeparator [13, 10] = true from rfl)]

/-- The *Body* state on a stream holding the full body and possibly more:
move exactly `n` bytes into the accumulator (never over-reading), decode,
return the message, and go back to *Header* with an empty accumulator,
leaving the rest of the stream untouched. -/
theorem readNext_body_step {α : Type} (decode : List Nat → Option α) (n : Nat)
    (body rest : List Nat) (r : α) (hlen : body.length = n) (hpos : 0 < n)
    (hdec : decode body = some r) :
    readNext decode ⟨RState.body, [], n⟩ (body ++ rest)
      = (NextResult.msg r, ⟨RState.header, [], n⟩, rest) := by
  have hne : body ++ rest ≠ [] := by
    intro hc
    obtain ⟨hb, hr⟩ := List.append_eq_nil.mp hc
    rw [hb] at hlen
    simp at hlen
    omega
  conv_lhs => rw [readNext.eq_def]
  by_cases hrest : rest = []
  · subst hrest
    simp only [List.append_nil] at hne ⊢
    have hle : ([] : List Nat).length + body.length ≤ n := by
      simp [hlen]
    simp only [dif_neg hne, if_pos hle, List.nil_append]
    rw [if_pos (show body.length = n from hlen), hdec]
  · have hgt : ¬ (0 + (body ++ rest).length ≤ n) := by
      simp only [List.length_append, hlen]
      have h0 : 0 < rest.length := List.length_pos.mpr hrest
      omega
    have hnlt : ¬ (n < 0) := by omega
    simp only [dif_neg hne, List.nil_append, List.length_nil, Nat.sub_zero,
      if_neg hgt, if_neg hnlt, List.take_left' hlen, List.drop_left' hlen, hdec]

/-- C1: for every byte stream beginning with a complete well-formed DAP
frame — a header line (no interior newline) that decodes as UTF-8 and, after
trimming trailing whitespace, splits on a single colon into the field
`Content-Length` and a decimal `n` (nonzero, in `usize` range), followed by
the exact separator CR LF, followed by a body of exactly `n` bytes that
decodes as a JSON request `r` — `next()` returns the decoded request `r`,
consumes exactly the frame's bytes (any following bytes `rest` remain
unconsumed for subsequent calls, and at most `n` bytes ever enter the body
accumulator), and leaves the reader in the *Header* state with an empty
accumulator. -/
theorem dap_codec_next_well_formed_frame {α : Type} (decode : List Nat → Option α)
    (m n : Nat) (pre body rest : List Nat) (cs ds : List Char) (r : α)
    (hpre : ¬ 10 ∈ pre)
    (hutf : utf8Decode (pre ++ [10]) = some cs)
    (hsplit : splitOnChar ':' (trimEnd cs) = ["Content-Length".data, ds])
    (hds : ds ≠ []) (hdig : ∀ c ∈ ds, c.isDigit = true)
    (hval : digitsVal ds = n) (hmax : n ≤ 2 ^ 64 - 1)
    (hlen : body.length = n) (hpos : 0 < n) (hdec : decode body = some r) :
    readNext decode ⟨RState.header, [], m⟩
        (pre ++ 10 :: 13 :: 10 :: (body ++ rest))
      = (NextResult.msg r, ⟨RState.header, [], n⟩, rest) := by
  rw [readNext_header_step decode m pre _ n hpre
      (processHeader_of pre cs ds n hutf hsplit hds hdig hval hmax)]
  rw [readNext_sep_step, readNext_body_step decode n body rest r hlen hpos hdec]

/-- C1 witness: the concrete frame `Content-Length:2`, CR LF, a two-byte
JSON body, followed by one extra byte 99; `next()` (with the identity
decoder) returns the body, leaves byte 99 unconsumed, and ends in the
*Header* state with an empty accumulator. -/
theorem dap_codec_next_well_formed_frame_witness :
    readNext (fun b => some b) ⟨RState.header, [], 0⟩
        ([67, 111, 110, 116, 101, 110, 116, 45, 76, 101, 110, 103, 116, 104, 58, 50]
          ++ 10 :: 13 :: 10 :: ([123, 125] ++ [99]))
      = (NextResult.msg [123, 125], ⟨RState.header, [], 2⟩, [99]) :=
  dap_codec_next_well_formed_frame (fun b => some b) 0 2
    [67, 111, 110, 116, 101, 110, 116, 45, 76, 101, 110, 103, 116, 104, 58, 50]
    [123, 125] [99] ("Content-Length:2".data ++ [lfChar]) ['2'] [123, 125]
    (by decide) (by decide) (by decide) (by decide) (by decide) rfl (by decide)
    rfl (by decide) rfl


end UnrealDbg
